import Mathlib

/-!
Verification of the mapbox/pagerduty Node.js SDK against its specification.

The embedding models:
- `src/lib/utils.js` (`updateUrl`, the query-merge helper), at the level of a
  parsed URL: Node's `url.parse` + `querystring.parse` yield an ordered
  key/value mapping for the query string, and `querystring.stringify` +
  `url.format` serialize it back.  `ParsedUrl.query` is that ordered mapping.
- the PagerDuty client class (`get`/`post`/`put`/`delete` with the recursive
  `query` pagination loop), as pure functions over a scripted list of page
  results standing for the HTTP transport.

JavaScript conventions captured explicitly: truthiness checks (`!options.path`,
`body.more ? ...`), `Array.prototype.concat` (flattening array arguments one
level, appending non-array arguments as single elements), `Object.assign`
(last write wins, insertion order preserved), and `undefined` as a first-class
value (`Json.undefined`).
-/

/-- JSON-ish JavaScript values, including `undefined`. Numbers are modelled as
integers (all numbers occurring in the claims are integers). -/
inductive Json where
  | undefined : Json
  | null : Json
  | bool : Bool → Json
  | num : Int → Json
  | str : String → Json
  | arr : List Json → Json
  | obj : List (String × Json) → Json

/-- JavaScript truthiness of a value: `undefined`, `null`, `false`, `0` and
`""` are falsy; objects and arrays are always truthy. -/
def Json.truthy : Json → Bool
  | .undefined => false
  | .null => false
  | .bool b => b
  | .num n => n != 0
  | .str s => s != ""
  | .arr _ => true
  | .obj _ => true

/-- JavaScript property read `o[k]` on an object: the value at key `k`, or
`undefined` when the key is absent (or the value is not an object). -/
def Json.get : Json → String → Json
  | .obj fields, k =>
    match fields.find? (fun p => p.1 == k) with
    | some p => p.2
    | none => .undefined
  | _, _ => .undefined

/-- Whether an object carries key `k` (`Object.hasOwnProperty`-style). -/
def Json.hasKey (j : Json) (k : String) : Bool :=
  match j with
  | .obj fields => fields.any (fun p => p.1 == k)
  | _ => false

/- `JSON.stringify`, restricted to the value shapes the claims exercise
(escaping of special characters inside strings is not modelled; no claim
depends on it).  `undefined` interpolated into a template literal prints as
`undefined`; `undefined`-valued object fields are omitted, as
`JSON.stringify` does. -/
mutual

/-- The `JSON.stringify` serialization, restricted to the value shapes the
claims exercise. -/
def Json.stringify : Json → String
  | .undefined => "undefined"
  | .null => "null"
  | .bool b => if b then "true" else "false"
  | .num n => toString n
  | .str s => "\"" ++ s ++ "\""
  | .arr xs => "[" ++ String.intercalate "," (Json.stringifyElems xs) ++ "]"
  | .obj fields => "\x7b" ++ String.intercalate "," (Json.stringifyFields fields) ++ "\x7d"

/-- Serialized forms of the elements of a JSON array, in order. -/
def Json.stringifyElems : List Json → List String
  | [] => []
  | x :: xs => Json.stringify x :: Json.stringifyElems xs

/-- Serialized `"key":value` forms of an object's fields, in order,
skipping `undefined`-valued fields as `JSON.stringify` does. -/
def Json.stringifyFields : List (String × Json) → List String
  | [] => []
  | (k, v) :: rest =>
    if v matches .undefined then Json.stringifyFields rest
    else ("\"" ++ k ++ "\":" ++ Json.stringify v) :: Json.stringifyFields rest

end

/-- A URL after `url.parse` plus `querystring.parse`: scheme, host and path
kept verbatim, the query string as an ordered key → value mapping (JS objects
preserve string-key insertion order). -/
structure ParsedUrl where
  protocol : String
  host : String
  pathname : String
  query : List (String × String)
deriving DecidableEq, Repr

/-- Whether the parsed query string carries key `k`
(`qs.hasOwnProperty(k)`). -/
def ParsedUrl.hasQueryKey (u : ParsedUrl) (k : String) : Bool :=
  u.query.any (fun p => p.1 == k)

/-- First value associated to key `k` in a parsed query string. -/
def queryLookup (q : List (String × String)) (k : String) : Option String :=
  (q.find? (fun p => p.1 == k)).map (fun p => p.2)

/-- `updateUrl` from `src/lib/utils.js`: parse the query string; for each of
`offset`, `total`, `limit`, if the key is already present leave it untouched,
otherwise add the default (`offset` ← the passed-in offset, `total` ← `true`,
`limit` ← `100`); serialize back.  Added keys land after the original keys, in
the order offset, total, limit, because assigning to a fresh key of a JS
object appends it.  The numeric/boolean defaults are shown already serialized,
as `querystring.stringify` prints them. -/
def updateUrl (u : ParsedUrl) (offset : Int) : ParsedUrl :=
  let qs := u.query
  let qs := if qs.any (fun p => p.1 == "offset") then qs else qs ++ [("offset", toString offset)]
  let qs := if qs.any (fun p => p.1 == "total") then qs else qs ++ [("total", "true")]
  let qs := if qs.any (fun p => p.1 == "limit") then qs else qs ++ [("limit", "100")]
  { u with query := qs }

/-- JS truthiness of an optional string slot such as `options.token` /
`this.token`: absent (`undefined`) and the empty string are both falsy. -/
def tokenTruthy : Option String → Bool
  | none => false
  | some s => s != ""

/-- An opaque error value produced by the underlying HTTP library (axios) for
a transport-level failure with no HTTP response attached (DNS failure,
connection reset, timeout). -/
structure TransportError where
  tag : String
deriving DecidableEq, Repr

/-- One scripted reply of the HTTP transport to one issued request: either a
transport-level failure, or an HTTP response with a status code and a parsed
JSON body (`res.data`). -/
inductive PageResult where
  | transportErr : TransportError → PageResult
  | response : Nat → Json → PageResult

/-- The value handed to the caller's callback as its error argument.  The
source mixes shapes: `new Error(msg)` objects for the local precondition
checks, bare template-literal strings for HTTP status failures, and the HTTP
library's own error value passed through for transport failures. -/
inductive CbError where
  | errObj : String → CbError
  | str : String → CbError
  | transport : TransportError → CbError
deriving DecidableEq, Repr

/-- Final outcome of a paginated `get` call: the accumulated results, an
error, or (an artifact of the scripted transport) the script ran out before
the loop stopped asking for pages. -/
inductive GetOutcome where
  | ok : List Json → GetOutcome
  | err : CbError → GetOutcome
  | noScriptedResponse : GetOutcome

/-- One HTTP request issued by the pagination loop: the offset passed to
`updateUrl` (as a JS number, `none` standing for `NaN`) and the
`Authorization` header value. -/
structure IssuedRequest where
  offset : Option Int
  auth : String
deriving DecidableEq, Repr

/-- JS `+` on numbers where `none` stands for `NaN` (e.g. `offset +=
body.limit` when `body.limit` is `undefined`): `NaN` propagates. -/
def jsAdd : Option Int → Option Int → Option Int
  | some a, some b => some (a + b)
  | _, _ => none

/-- The page's `body.limit` read as a number: an actual JSON number gives its
value, anything else behaves as `NaN` under `+`. -/
def limitVal (body : Json) : Option Int :=
  match body.get "limit" with
  | .num n => some n
  | _ => none

/-- One page's contribution to `results`, following
`results = options.key ? results.concat(body[options.key]) : results.concat(body)`:
with a truthy `key`, `body[key]` is concatenated — an array is flattened one
level, any other value (including `undefined`) is appended as a single
element; with no (or a falsy) `key` the whole body is appended as one
element. -/
def contribute (key : Option String) (body : Json) : List Json :=
  if tokenTruthy key then
    match body.get (key.getD "") with
    | .arr xs => xs
    | v => [v]
  else [body]

/-- The formatted message of an HTTP-status failure,
`` `HTTP status code ${res.status}: ${JSON.stringify(res.data)}` ``. -/
def httpErrMsg (status : Nat) (body : Json) : String :=
  "HTTP status code " ++ toString status ++ ": " ++ body.stringify

/-- The recursive `query(offset)` loop of `get` (src/unnamed/part_001): issue
a GET at the current offset; on transport error or a status other than 200
call back with the error; otherwise fold the page's contribution into
`results` and, if `body.more` is truthy, recurse at `offset + body.limit`,
else call back with the accumulated results.  The scripted `pages` list
answers successive requests in order; the returned list records every issued
request in order, so its length is the number of dispatcher calls. -/
def query (key : Option String) (auth : String) :
    Option Int → List Json → List PageResult → GetOutcome × List IssuedRequest
  | offset, _, [] => (.noScriptedResponse, [⟨offset, auth⟩])
  | offset, _, .transportErr e :: _ => (.err (.transport e), [⟨offset, auth⟩])
  | offset, results, .response status body :: rest =>
    if status ≠ 200 then
      (.err (.str (httpErrMsg status body)), [⟨offset, auth⟩])
    else
      let results := results ++ contribute key body
      if (body.get "more").truthy then
        let r := query key auth (jsAdd offset (limitVal body)) results rest
        (r.1, ⟨offset, auth⟩ :: r.2)
      else
        (.ok results, [⟨offset, auth⟩])

/-- Per-call options of `get`: `options.path` (a string, empty = falsy),
`options.key`, `options.token`. -/
structure GetOptions where
  path : String
  key : Option String
  token : Option String

/-- Resolved token after `if (!options.token) options.token = this.token`:
the per-call token when truthy, else the client default. -/
def resolveToken (optToken clientToken : Option String) : Option String :=
  if tokenTruthy optToken then optToken else clientToken

/-- The `Authorization` header, `` `Token token=${options.token}` ``. -/
def authHeader (token : String) : String := "Token token=" ++ token

/-- `PagerDuty#get` (src/unnamed/part_001): precondition checks (`path`
present, a token resolvable from the call or the client default), then the
pagination loop starting at offset 0 with an empty accumulator.  Returns the
outcome handed to the callback together with every request issued (empty on a
precondition failure: the transport is never invoked). -/
def getRun (clientToken : Option String) (o : GetOptions) (pages : List PageResult) :
    GetOutcome × List IssuedRequest :=
  if o.path = "" then (.err (.errObj "Must provide options.path"), [])
  else if !tokenTruthy o.token && !tokenTruthy clientToken then
    (.err (.errObj "Must provide PagerDuty access token"), [])
  else
    query o.key (authHeader ((resolveToken o.token clientToken).getD "")) (some 0) [] pages

/-- Assignment `target[k] = v` on a JS object modelled as an ordered
association list: an existing key keeps its position and gets the new value,
a fresh key is appended. -/
def objSet (target : List (String × String)) (k v : String) : List (String × String) :=
  if target.any (fun p => p.1 == k) then
    target.map (fun p => if p.1 == k then (p.1, v) else p)
  else target ++ [(k, v)]

/-- `Object.assign(target, source)`: copy the source's own keys into the
target in order, overwriting on collision. -/
def objAssign (target source : List (String × String)) : List (String × String) :=
  source.foldl (fun t p => objSet t p.1 p.2) target

/-- The two mandatory headers built before the merge with `options.headers`:
the versioned `Accept` header and the `Authorization` token header. -/
def defaultHeaders (token : String) : List (String × String) :=
  [("Accept", "application/vnd.pagerduty+json;version=2"),
   ("Authorization", authHeader token)]

/-- First value associated to header name `k` in a header list. -/
def headerLookup (hs : List (String × String)) (k : String) : Option String :=
  (hs.find? (fun p => p.1 == k)).map (fun p => p.2)

/-- Per-call options of `post`/`put`: `options.path`, `options.body` (a JSON
value, `Json.undefined` when absent), `options.headers` (caller-supplied extra
headers, `[]` when absent) and `options.token`. -/
structure WriteOptions where
  path : String
  body : Json
  headers : List (String × String)
  token : Option String

/-- Per-call options of `delete`: `options.path` and `options.token`. -/
structure DeleteOptions where
  path : String
  token : Option String

/-- Outcome of a single-request verb (`post`/`put`/`delete`): the response
body handed to the callback as `{ body: res.data }`, or an error. -/
inductive SingleOutcome where
  | ok : Json → SingleOutcome
  | err : CbError → SingleOutcome

/-- The one HTTP request a single-request verb issues: its full header
list after the `Object.assign` merge. -/
structure SentRequest where
  headers : List (String × String)
deriving DecidableEq, Repr

/-- Shared response handling of the single-request verbs
(src/unnamed/part_001): a transport failure passes the library's error value
through; a response with any status other than the verb's single expected
code yields the formatted status string; the expected status succeeds.  (In
the source a non-2xx status travels through axios's reject path and a
2xx-but-unexpected status through the `res.status !== expected` check; both
produce the same formatted string, so one classification covers both.) -/
def handleSingle (expected : Nat) : PageResult → SingleOutcome
  | .transportErr e => .err (.transport e)
  | .response status body =>
    if status = expected then .ok body
    else .err (.str (httpErrMsg status body))

/-- `PagerDuty#post` (src/unnamed/part_001): check `path`, `body` and token
resolvability in that order — each failure calls back with an `Error` object
and issues no request — then send one POST whose headers are
`Object.assign(defaults, options.headers)` and classify the response against
expected status 201. -/
def postRun (clientToken : Option String) (o : WriteOptions) (resp : PageResult) :
    SingleOutcome × List SentRequest :=
  if o.path = "" then (.err (.errObj "Must provide options.path"), [])
  else if !o.body.truthy then (.err (.errObj "Must provide options.body"), [])
  else if !tokenTruthy o.token && !tokenTruthy clientToken then
    (.err (.errObj "Must provide PagerDuty access token"), [])
  else
    let token := (resolveToken o.token clientToken).getD ""
    (handleSingle 201 resp, [⟨objAssign (defaultHeaders token) o.headers⟩])

/-- `PagerDuty#put` (src/unnamed/part_001): as `post`, with expected
status 200. -/
def putRun (clientToken : Option String) (o : WriteOptions) (resp : PageResult) :
    SingleOutcome × List SentRequest :=
  if o.path = "" then (.err (.errObj "Must provide options.path"), [])
  else if !o.body.truthy then (.err (.errObj "Must provide options.body"), [])
  else if !tokenTruthy o.token && !tokenTruthy clientToken then
    (.err (.errObj "Must provide PagerDuty access token"), [])
  else
    let token := (resolveToken o.token clientToken).getD ""
    (handleSingle 200 resp, [⟨objAssign (defaultHeaders token) o.headers⟩])

/-- `PagerDuty#delete` (src/unnamed/part_001): check `path` and token
resolvability, then send one DELETE with the two mandatory headers and
classify the response against expected status 204. -/
def deleteRun (clientToken : Option String) (o : DeleteOptions) (resp : PageResult) :
    SingleOutcome × List SentRequest :=
  if o.path = "" then (.err (.errObj "Must provide options.path"), [])
  else if !tokenTruthy o.token && !tokenTruthy clientToken then
    (.err (.errObj "Must provide PagerDuty access token"), [])
  else
    let token := (resolveToken o.token clientToken).getD ""
    (handleSingle 204 resp, [⟨defaultHeaders token⟩])

/-- The error value a failing page produces in the pagination loop: a
transport failure passes the library's error through, a non-200 status
produces the formatted string; a 200 response is not a failure. -/
def failErr : PageResult → Option CbError
  | .transportErr e => some (.transport e)
  | .response status body =>
    if status = 200 then none else some (.str (httpErrMsg status body))

/-- Whether the integer offsets of a request list strictly increase from each
request to the next (a non-numeric offset never counts as increasing). -/
def offsetsStrictIncr : List IssuedRequest → Bool
  | [] => true
  | [_] => true
  | a :: b :: rest =>
    (match a.offset, b.offset with
     | some x, some y => decide (x < y)
     | _, _ => false) && offsetsStrictIncr (b :: rest)

/-- Discriminator: is this callback error a JS `Error` object? -/
def CbError.isErrObj : CbError → Bool
  | .errObj _ => true
  | _ => false

/-- Discriminator: is this callback error a bare JS string? -/
def CbError.isStr : CbError → Bool
  | .str _ => true
  | _ => false

/-- Discriminator: is this callback error the HTTP library's own error value
passed through? -/
def CbError.isTransport : CbError → Bool
  | .transport _ => true
  | _ => false

theorem queryLookup_append_left (qs rest : List (String × String)) (k : String)
    (h : qs.any (fun p => p.1 == k) = true) :
    queryLookup (qs ++ rest) k = queryLookup qs k := by
  induction qs with
  | nil => simp at h
  | cons p qs ih =>
    by_cases hp : p.1 == k
    · simp [queryLookup, List.find?_cons, hp]
    · simp only [List.any_cons, hp, Bool.false_or] at h
      simp only [queryLookup, List.cons_append, List.find?_cons, hp]
      exact ih h

theorem any_of_queryLookup {qs : List (String × String)} {k v : String}
    (h : queryLookup qs k = some v) : qs.any (fun p => p.1 == k) = true := by
  unfold queryLookup at h
  cases hf : qs.find? (fun p => p.1 == k) with
  | none => rw [hf] at h; simp at h
  | some q =>
    have hq := List.find?_some hf
    exact List.any_eq_true.mpr ⟨q, List.mem_of_find?_eq_some hf, hq⟩

theorem updateUrl_query_extends (u : ParsedUrl) (offset : Int) :
    ∃ rest, (updateUrl u offset).query = u.query ++ rest := by
  unfold updateUrl
  by_cases ho : u.query.any (fun p => p.1 == "offset") <;>
    by_cases ht : (u.query.any (fun p => p.1 == "total")) <;>
      by_cases hl : (u.query.any (fun p => p.1 == "limit"))
  all_goals simp [ho, ht, hl, List.any_append, List.append_assoc]

theorem updateUrl_has_all (u : ParsedUrl) (offset : Int) :
    (updateUrl u offset).query.any (fun p => p.1 == "offset") = true ∧
    (updateUrl u offset).query.any (fun p => p.1 == "total") = true ∧
    (updateUrl u offset).query.any (fun p => p.1 == "limit") = true := by
  unfold updateUrl
  by_cases ho : u.query.any (fun p => p.1 == "offset") <;>
    by_cases ht : (u.query.any (fun p => p.1 == "total")) <;>
      by_cases hl : (u.query.any (fun p => p.1 == "limit"))
  all_goals simp [ho, ht, hl, List.any_append]

theorem updateUrl_of_has_all (u : ParsedUrl) (offset : Int)
    (ho : u.query.any (fun p => p.1 == "offset") = true)
    (ht : u.query.any (fun p => p.1 == "total") = true)
    (hl : u.query.any (fun p => p.1 == "limit") = true) :
    updateUrl u offset = u := by
  simp [updateUrl, ho, ht, hl]

/-- C3: `updateUrl` is idempotent — applying it twice with the same offset
gives the same URL as applying it once — and any of the keys `offset`,
`total`, `limit` already present in the input query string (whatever its
value, including strings like `"false"`) keeps its original value in the
output. -/
theorem updateUrl_idempotent_preserves_existing (u : ParsedUrl) (offset : Int) :
    updateUrl (updateUrl u offset) offset = updateUrl u offset ∧
    ∀ k v : String, (k = "offset" ∨ k = "total" ∨ k = "limit") →
      queryLookup u.query k = some v →
      queryLookup (updateUrl u offset).query k = some v := by
  constructor
  · obtain ⟨ho, ht, hl⟩ := updateUrl_has_all u offset
    exact updateUrl_of_has_all _ offset ho ht hl
  · intro k v _ hv
    obtain ⟨rest, hq⟩ := updateUrl_query_extends u offset
    rw [hq, queryLookup_append_left _ _ _ (any_of_queryLookup hv)]
    exact hv

/-- Witness for C3 at a concrete input: the URL
`http://h/p?total=false` with offset 5 — `total=false` is kept verbatim and a
second application changes nothing. -/
theorem updateUrl_idempotent_preserves_existing_witness :
    updateUrl (updateUrl ⟨"http:", "h", "/p", [("total", "false")]⟩ 5) 5 =
      updateUrl ⟨"http:", "h", "/p", [("total", "false")]⟩ 5 ∧
    queryLookup (updateUrl ⟨"http:", "h", "/p", [("total", "false")]⟩ 5).query "total" =
      some "false" :=
  ⟨(updateUrl_idempotent_preserves_existing ⟨"http:", "h", "/p", [("total", "false")]⟩ 5).1,
   (updateUrl_idempotent_preserves_existing ⟨"http:", "h", "/p", [("total", "false")]⟩ 5).2
     "total" "false" (Or.inr (Or.inl rfl)) rfl⟩

/-- C4: on a URL whose query string carries none of `offset`, `total`,
`limit`, `updateUrl` appends exactly `offset=<offset>`, `total=true`,
`limit=100` in that order after the original keys (kept in their original
order), leaving scheme, host and path unchanged. -/
theorem updateUrl_adds_defaults (u : ParsedUrl) (offset : Int)
    (ho : u.hasQueryKey "offset" = false)
    (ht : u.hasQueryKey "total" = false)
    (hl : u.hasQueryKey "limit" = false) :
    updateUrl u offset =
      { u with query := u.query ++
          [("offset", toString offset), ("total", "true"), ("limit", "100")] } := by
  unfold ParsedUrl.hasQueryKey at ho ht hl
  simp [updateUrl, ho, ht, hl, List.any_append]

/-- Witness for C4, the spec's own example: `updateUrl("http://h/p?x=1", 7)`
yields the query string `x=1&offset=7&total=true&limit=100` with scheme, host
and path unchanged. -/
theorem updateUrl_adds_defaults_witness :
    updateUrl ⟨"http:", "h", "/p", [("x", "1")]⟩ 7 =
      ⟨"http:", "h", "/p",
        [("x", "1"), ("offset", "7"), ("total", "true"), ("limit", "100")]⟩ :=
  updateUrl_adds_defaults ⟨"http:", "h", "/p", [("x", "1")]⟩ 7 rfl rfl rfl

theorem query_cons_more (key : Option String) (auth : String) (offset : Option Int)
    (acc : List Json) (body : Json) (rest : List PageResult)
    (hb : (body.get "more").truthy = true) :
    query key auth offset acc (.response 200 body :: rest) =
      ((query key auth (jsAdd offset (limitVal body)) (acc ++ contribute key body) rest).1,
       ⟨offset, auth⟩ ::
         (query key auth (jsAdd offset (limitVal body)) (acc ++ contribute key body) rest).2) := by
  simp [query, hb]

theorem query_cons_nomore (key : Option String) (auth : String) (offset : Option Int)
    (acc : List Json) (body : Json) (rest : List PageResult)
    (hb : (body.get "more").truthy = false) :
    query key auth offset acc (.response 200 body :: rest) =
      (.ok (acc ++ contribute key body), [⟨offset, auth⟩]) := by
  simp [query, hb]

theorem query_all_ok (key : Option String) (auth : String) (bodies : List Json)
    (offset : Option Int) (acc : List Json) (hne : bodies ≠ [])
    (hmid : ∀ b ∈ bodies.dropLast, (b.get "more").truthy = true)
    (hlast : ∀ b, bodies.getLast? = some b → (b.get "more").truthy = false) :
    (query key auth offset acc (bodies.map (.response 200))).1 =
      .ok (acc ++ bodies.flatMap (contribute key)) ∧
    (query key auth offset acc (bodies.map (.response 200))).2.length = bodies.length := by
  induction bodies generalizing offset acc with
  | nil => exact absurd rfl hne
  | cons b rest ih =>
    cases rest with
    | nil =>
      have hb : (b.get "more").truthy = false := hlast b rfl
      rw [List.map_cons, List.map_nil, query_cons_nomore _ _ _ _ _ _ hb]
      simp
    | cons b' rest' =>
      have hb : (b.get "more").truthy = true := by
        apply hmid
        rw [List.dropLast_cons_of_ne_nil (by simp)]
        exact List.mem_cons_self _ _
      have ihr := ih (jsAdd offset (limitVal b)) (acc ++ contribute key b) (by simp)
        (fun c hc => hmid c
          (by rw [List.dropLast_cons_of_ne_nil (by simp)]; exact List.mem_cons_of_mem _ hc))
        (fun c hc => hlast c (by simpa using hc))
      rw [List.map_cons, query_cons_more _ _ _ _ _ _ hb]
      refine ⟨?_, ?_⟩
      · dsimp only
        rw [ihr.1]
        simp [List.append_assoc]
      · dsimp only
        rw [List.length_cons, ihr.2]
        simp

/-- C1: over a scripted page sequence in which every page but the last is a
200 response reporting a truthy `more` and an integer `limit`, and the last
is a 200 response with `more: false`, the paginated `get` issues exactly one
dispatcher call per page and hands the callback the in-order concatenation of
each page's contribution (`body[key]` flattened one level when `key` is given
and `body[key]` is an array, the whole body as one element otherwise), whose
length is the sum of the per-page contribution lengths. -/
theorem getRun_aggregates_all_pages (clientToken : Option String) (o : GetOptions)
    (bodies : List Json) (hne : bodies ≠ [])
    (hpath : o.path ≠ "")
    (htok : tokenTruthy o.token = true ∨ tokenTruthy clientToken = true)
    (hmid : ∀ b ∈ bodies.dropLast,
      (b.get "more").truthy = true ∧ ∃ n : Int, b.get "limit" = .num n)
    (hlast : ∀ b, bodies.getLast? = some b → (b.get "more").truthy = false) :
    (getRun clientToken o (bodies.map (.response 200))).1 =
      .ok (bodies.flatMap (contribute o.key)) ∧
    (getRun clientToken o (bodies.map (.response 200))).2.length = bodies.length ∧
    (bodies.flatMap (contribute o.key)).length =
      (bodies.map (fun b => (contribute o.key b).length)).sum := by
  have hq := query_all_ok o.key
    (authHeader ((resolveToken o.token clientToken).getD "")) bodies (some 0) []
    hne (fun b hb => (hmid b hb).1) hlast
  have hg : getRun clientToken o (bodies.map (.response 200)) =
      query o.key (authHeader ((resolveToken o.token clientToken).getD ""))
        (some 0) [] (bodies.map (.response 200)) := by
    unfold getRun
    rcases htok with h | h <;> simp [hpath, h]
  refine ⟨?_, ?_, ?_⟩
  · rw [hg, hq.1]; simp
  · rw [hg, hq.2]
  · simp only [List.length_flatMap]; rfl

/-- Witness for C1 at a concrete three-page run: pages contributing 2, 1 and
2 elements under key `incidents` yield the 5 elements in page order in one
callback after exactly 3 dispatcher calls. -/
theorem getRun_aggregates_all_pages_witness :
    (getRun (some "tok") ⟨"incidents", some "incidents", none⟩
        ([Json.obj [("incidents", .arr [.num 1, .num 2]), ("more", .bool true), ("limit", .num 2)],
          Json.obj [("incidents", .arr [.num 3]), ("more", .bool true), ("limit", .num 1)],
          Json.obj [("incidents", .arr [.num 4, .num 5]), ("more", .bool false)]].map
          (.response 200))).1 =
      .ok [.num 1, .num 2, .num 3, .num 4, .num 5] ∧
    (getRun (some "tok") ⟨"incidents", some "incidents", none⟩
        ([Json.obj [("incidents", .arr [.num 1, .num 2]), ("more", .bool true), ("limit", .num 2)],
          Json.obj [("incidents", .arr [.num 3]), ("more", .bool true), ("limit", .num 1)],
          Json.obj [("incidents", .arr [.num 4, .num 5]), ("more", .bool false)]].map
          (.response 200))).2.length = 3 := by
  have h := getRun_aggregates_all_pages (some "tok") ⟨"incidents", some "incidents", none⟩
    [Json.obj [("incidents", .arr [.num 1, .num 2]), ("more", .bool true), ("limit", .num 2)],
     Json.obj [("incidents", .arr [.num 3]), ("more", .bool true), ("limit", .num 1)],
     Json.obj [("incidents", .arr [.num 4, .num 5]), ("more", .bool false)]]
    (List.cons_ne_nil _ _) (by decide) (Or.inr (by decide))
    (by
      intro b hb
      rcases List.mem_cons.mp hb with h1 | h1
      · subst h1; exact ⟨rfl, 2, rfl⟩
      rcases List.mem_cons.mp h1 with h2 | h2
      · subst h2; exact ⟨rfl, 1, rfl⟩
      · cases h2)
    (by
      intro b hb
      have hb' : some (Json.obj [("incidents", .arr [.num 4, .num 5]),
          ("more", .bool false)]) = some b := hb
      cases hb'
      rfl)
  exact ⟨h.1, h.2.1⟩

theorem query_failfast (key : Option String) (auth : String) (good : List Json)
    (e : CbError) (fail : PageResult) (rest : List PageResult)
    (offset : Option Int) (acc : List Json)
    (hgood : ∀ b ∈ good, (b.get "more").truthy = true)
    (hfail : failErr fail = some e) :
    (query key auth offset acc (good.map (.response 200) ++ fail :: rest)).1 = .err e ∧
    (query key auth offset acc (good.map (.response 200) ++ fail :: rest)).2.length =
      good.length + 1 := by
  induction good generalizing offset acc with
  | nil =>
    cases fail with
    | transportErr te =>
      cases hfail
      exact ⟨rfl, rfl⟩
    | response status body =>
      by_cases hs : status = 200
      · subst hs; simp [failErr] at hfail
      · simp only [failErr, if_neg hs] at hfail
        cases hfail
        simp [query, hs]
  | cons b good' ih =>
    have hb : (b.get "more").truthy = true := hgood b (List.mem_cons_self _ _)
    have ihr := ih (jsAdd offset (limitVal b)) (acc ++ contribute key b)
      (fun c hc => hgood c (List.mem_cons_of_mem _ hc))
    rw [List.map_cons, List.cons_append, query_cons_more _ _ _ _ _ _ hb]
    refine ⟨ihr.1, ?_⟩
    dsimp only
    rw [List.length_cons, ihr.2, List.length_cons]

/-- C2: if every page before page k is a 200 response with a truthy `more`
and the fetch of page k fails — transport error or non-200 status — the
paginated `get` hands the callback exactly that page's error (never the
partial accumulation, which only an `ok` outcome carries), and it issues
exactly k dispatcher calls whatever pages are scripted after page k: no later
page is ever requested. -/
theorem getRun_failfast (clientToken : Option String) (o : GetOptions)
    (good : List Json) (e : CbError) (fail : PageResult) (rest : List PageResult)
    (hpath : o.path ≠ "")
    (htok : tokenTruthy o.token = true ∨ tokenTruthy clientToken = true)
    (hgood : ∀ b ∈ good, (b.get "more").truthy = true)
    (hfail : failErr fail = some e) :
    (getRun clientToken o (good.map (.response 200) ++ fail :: rest)).1 = .err e ∧
    (getRun clientToken o (good.map (.response 200) ++ fail :: rest)).2.length =
      good.length + 1 := by
  have hg : getRun clientToken o (good.map (.response 200) ++ fail :: rest) =
      query o.key (authHeader ((resolveToken o.token clientToken).getD ""))
        (some 0) [] (good.map (.response 200) ++ fail :: rest) := by
    unfold getRun
    rcases htok with h | h <;> simp [hpath, h]
  rw [hg]
  exact query_failfast o.key _ good e fail rest (some 0) [] hgood hfail

/-- Witness for C2 at a concrete run: page 1 succeeds with `more: true`,
page 2 answers 404, a third page is scripted — the callback gets the 404
string and exactly 2 dispatcher calls are made. -/
theorem getRun_failfast_witness :
    (getRun (some "tok") ⟨"incidents", some "incidents", none⟩
        ([Json.obj [("incidents", .arr [.num 1]), ("more", .bool true), ("limit", .num 1)]].map
            (.response 200) ++
          .response 404 (.obj []) ::
            [.response 200 (.obj [("incidents", .arr [.num 2])])])).1 =
      .err (.str "HTTP status code 404: \x7b\x7d") ∧
    (getRun (some "tok") ⟨"incidents", some "incidents", none⟩
        ([Json.obj [("incidents", .arr [.num 1]), ("more", .bool true), ("limit", .num 1)]].map
            (.response 200) ++
          .response 404 (.obj []) ::
            [.response 200 (.obj [("incidents", .arr [.num 2])])])).2.length = 2 :=
  getRun_failfast (some "tok") ⟨"incidents", some "incidents", none⟩
    [Json.obj [("incidents", .arr [.num 1]), ("more", .bool true), ("limit", .num 1)]]
    (.str "HTTP status code 404: \x7b\x7d") (.response 404 (.obj []))
    [.response 200 (.obj [("incidents", .arr [.num 2])])]
    (by decide) (Or.inr (by decide))
    (by
      intro b hb
      rcases List.mem_cons.mp hb with h1 | h1
      · subst h1; rfl
      · cases h1)
    rfl

theorem query_head (key : Option String) (auth : String) (offset : Option Int)
    (acc : List Json) (pages : List PageResult) :
    (query key auth offset acc pages).2.head? = some ⟨offset, auth⟩ := by
  cases pages with
  | nil => rfl
  | cons p rest =>
    cases p with
    | transportErr e => rfl
    | response status body =>
      by_cases hs : status = 200
      · subst hs
        by_cases hb : (body.get "more").truthy = true
        · rw [query_cons_more _ _ _ _ _ _ hb]; rfl
        · rw [query_cons_nomore _ _ _ _ _ _ (by simpa using hb)]; rfl
      · simp [query, hs]

theorem query_offsets_incr (key : Option String) (auth : String)
    (pages : List PageResult) (n : Int) (acc : List Json)
    (hpos : ∀ body, PageResult.response 200 body ∈ pages →
      (body.get "more").truthy = true → ∃ l : Int, limitVal body = some l ∧ 0 < l) :
    offsetsStrictIncr (query key auth (some n) acc pages).2 = true := by
  induction pages generalizing n acc with
  | nil => rfl
  | cons p rest ih =>
    cases p with
    | transportErr e => rfl
    | response status body =>
      by_cases hs : status = 200
      · subst hs
        by_cases hb : (body.get "more").truthy = true
        · obtain ⟨l, hl, hlpos⟩ := hpos body (List.mem_cons_self _ _) hb
          rw [query_cons_more _ _ _ _ _ _ hb]
          have hadd : jsAdd (some n) (limitVal body) = some (n + l) := by rw [hl]; rfl
          have hh := query_head key auth (some (n + l)) (acc ++ contribute key body) rest
          have ih' := ih (n + l) (acc ++ contribute key body)
            (fun b hbmem => hpos b (List.mem_cons_of_mem _ hbmem))
          dsimp only
          rw [hadd] at *
          cases hq : (query key auth (some (n + l)) (acc ++ contribute key body) rest).2 with
          | nil => rfl
          | cons r rs =>
            rw [hq] at hh ih'
            have hr : r = ⟨some (n + l), auth⟩ := by
              simp only [List.head?_cons, Option.some.injEq] at hh
              exact hh
            subst hr
            simp only [offsetsStrictIncr, Bool.and_eq_true]
            exact ⟨by simpa using (by omega : n < n + l), ih'⟩
        · rw [query_cons_nomore _ _ _ _ _ _ (by simpa using hb)]; rfl
      · simp [query, hs, offsetsStrictIncr]

/-- C5 amended: within one paginated `get` over scripted pages in which every
200 page reporting a truthy `more` also reports a positive integer `limit`,
the offsets of successive page requests strictly increase; each call starts
its own cursor at 0 (the loop is invoked as `query(0)` on per-call state, so
no cursor value carries over between calls).  The positivity proviso is
forced: the code advances the cursor by `body.limit`, so a page reporting
`limit: 0` (see the counterexample) repeats the same offset. -/
theorem getRun_offsets_strictly_increase (clientToken : Option String)
    (o : GetOptions) (pages : List PageResult)
    (hpath : o.path ≠ "")
    (htok : tokenTruthy o.token = true ∨ tokenTruthy clientToken = true)
    (hpos : ∀ body, PageResult.response 200 body ∈ pages →
      (body.get "more").truthy = true → ∃ l : Int, limitVal body = some l ∧ 0 < l) :
    offsetsStrictIncr (getRun clientToken o pages).2 = true ∧
    ∀ r, (getRun clientToken o pages).2.head? = some r → r.offset = some 0 := by
  have hg : getRun clientToken o pages =
      query o.key (authHeader ((resolveToken o.token clientToken).getD ""))
        (some 0) [] pages := by
    unfold getRun
    rcases htok with h | h <;> simp [hpath, h]
  rw [hg]
  refine ⟨query_offsets_incr _ _ pages 0 [] hpos, ?_⟩
  intro r hr
  rw [query_head] at hr
  cases hr
  rfl

/-- Witness for the amended C5 at a concrete two-page run with `limit: 1`:
the issued offsets strictly increase and the first request uses offset 0. -/
theorem getRun_offsets_strictly_increase_witness :
    offsetsStrictIncr (getRun (some "tok") ⟨"services", none, none⟩
        [.response 200 (.obj [("more", .bool true), ("limit", .num 1)]),
         .response 200 (.obj [])]).2 = true ∧
    IssuedRequest.offset ⟨some 0, authHeader "tok"⟩ = some 0 := by
  have h := getRun_offsets_strictly_increase (some "tok") ⟨"services", none, none⟩
    [.response 200 (.obj [("more", .bool true), ("limit", .num 1)]),
     .response 200 (.obj [])]
    (by decide) (Or.inr (by decide))
    (by
      intro body hmem hmore
      rcases List.mem_cons.mp hmem with h1 | h1
      · injection h1 with _ h2
        subst h2
        exact ⟨1, rfl, by decide⟩
      rcases List.mem_cons.mp h1 with h2 | h2
      · injection h2 with _ h3
        subst h3
        exact absurd hmore (by decide)
      · cases h2)
  exact ⟨h.1, h.2 ⟨some 0, authHeader "tok"⟩ rfl⟩

/-- C5 counterexample: a first page answering `more: true, limit: 0` makes
the loop issue the second request at the same offset 0, so the offsets used
within one paginated call do not strictly increase as the claim states. -/
theorem getRun_offsets_not_strictly_increasing :
    ((getRun (some "tok") ⟨"incidents", some "incidents", none⟩
        [.response 200 (.obj [("incidents", .arr [.num 1]), ("more", .bool true),
          ("limit", .num 0)]),
         .response 200 (.obj [("incidents", .arr [.num 2])])]).2.map
        IssuedRequest.offset) = [some 0, some 0] ∧
    offsetsStrictIncr (getRun (some "tok") ⟨"incidents", some "incidents", none⟩
        [.response 200 (.obj [("incidents", .arr [.num 1]), ("more", .bool true),
          ("limit", .num 0)]),
         .response 200 (.obj [("incidents", .arr [.num 2])])]).2 = false := by
  constructor <;> rfl

theorem Json.get_of_hasKey_false {body : Json} {k : String}
    (h : body.hasKey k = false) : body.get k = .undefined := by
  cases body <;> try rfl
  case obj fields =>
    simp only [Json.hasKey] at h
    have hnone : fields.find? (fun p => p.1 == k) = none :=
      List.find?_eq_none.mpr (fun x hx => by
        intro hxk
        have : fields.any (fun p => p.1 == k) = true := List.any_eq_true.mpr ⟨x, hx, hxk⟩
        rw [h] at this
        cases this)
    simp only [Json.get, hnone]

/-- C8: a 200 GET response whose body carries neither a `more` nor a `limit`
field ends the pagination after exactly one dispatcher call — whatever
further pages are scripted — and the callback receives exactly that single
page's contribution. -/
theorem getRun_single_page_default (clientToken : Option String) (o : GetOptions)
    (body : Json) (rest : List PageResult)
    (hpath : o.path ≠ "")
    (htok : tokenTruthy o.token = true ∨ tokenTruthy clientToken = true)
    (hmore : body.hasKey "more" = false)
    (_hlimit : body.hasKey "limit" = false) :
    (getRun clientToken o (.response 200 body :: rest)).1 = .ok (contribute o.key body) ∧
    (getRun clientToken o (.response 200 body :: rest)).2.length = 1 := by
  have hb : (body.get "more").truthy = false := by
    rw [Json.get_of_hasKey_false hmore]; rfl
  have hg : getRun clientToken o (.response 200 body :: rest) =
      query o.key (authHeader ((resolveToken o.token clientToken).getD ""))
        (some 0) [] (.response 200 body :: rest) := by
    unfold getRun
    rcases htok with h | h <;> simp [hpath, h]
  rw [hg, query_cons_nomore _ _ _ _ _ _ hb]
  exact ⟨by simp, rfl⟩

/-- Witness for C8 at a concrete run: a lone `users/PPPPPPA`-style body with
no `more`/`limit` fields, followed by a scripted extra page that is never
requested. -/
theorem getRun_single_page_default_witness :
    (getRun (some "tok") ⟨"users/PPPPPPA", some "user", none⟩
        (.response 200 (.obj [("user", .obj [("id", .str "PPPPPPA")])]) ::
          [.response 200 (.obj [])])).1 =
      .ok [.obj [("id", .str "PPPPPPA")]] ∧
    (getRun (some "tok") ⟨"users/PPPPPPA", some "user", none⟩
        (.response 200 (.obj [("user", .obj [("id", .str "PPPPPPA")])]) ::
          [.response 200 (.obj [])])).2.length = 1 :=
  getRun_single_page_default (some "tok") ⟨"users/PPPPPPA", some "user", none⟩
    (.obj [("user", .obj [("id", .str "PPPPPPA")])]) [.response 200 (.obj [])]
    (by decide) (Or.inr (by decide)) (by decide) (by decide)

/-- C6: each verb succeeds exactly on its single expected status — GET 200,
POST 201, PUT 200, DELETE 204 — and any other received status, other 2xx
codes included, is turned into the error string
`HTTP status code <code>: <JSON-serialized response body>`: for GET inside
the pagination loop, for POST/PUT/DELETE in the single-request handlers. -/
theorem verb_expected_status (status : Nat) (body : Json) :
    (∀ (key : Option String) (auth : String) (offset : Option Int) (acc : List Json)
        (rest : List PageResult), status ≠ 200 →
      (query key auth offset acc (.response status body :: rest)).1 =
        .err (.str (httpErrMsg status body))) ∧
    (∀ (key : Option String) (auth : String) (offset : Option Int) (acc : List Json)
        (rest : List PageResult), status = 200 → (body.get "more").truthy = false →
      (query key auth offset acc (.response status body :: rest)).1 =
        .ok (acc ++ contribute key body)) ∧
    (∀ (ct : Option String) (o : WriteOptions), o.path ≠ "" → o.body.truthy = true →
      (tokenTruthy o.token = true ∨ tokenTruthy ct = true) →
      (postRun ct o (.response status body)).1 =
        if status = 201 then .ok body else .err (.str (httpErrMsg status body))) ∧
    (∀ (ct : Option String) (o : WriteOptions), o.path ≠ "" → o.body.truthy = true →
      (tokenTruthy o.token = true ∨ tokenTruthy ct = true) →
      (putRun ct o (.response status body)).1 =
        if status = 200 then .ok body else .err (.str (httpErrMsg status body))) ∧
    (∀ (ct : Option String) (o : DeleteOptions), o.path ≠ "" →
      (tokenTruthy o.token = true ∨ tokenTruthy ct = true) →
      (deleteRun ct o (.response status body)).1 =
        if status = 204 then .ok body else .err (.str (httpErrMsg status body))) := by
  refine ⟨?_, ?_, ?_, ?_, ?_⟩
  · intro key auth offset acc rest h
    simp [query, h]
  · intro key auth offset acc rest h hb
    subst h
    rw [query_cons_nomore _ _ _ _ _ _ hb]
  · intro ct o hp hb ht
    unfold postRun
    rcases ht with h | h <;> simp [hp, hb, h, handleSingle]
  · intro ct o hp hb ht
    unfold putRun
    rcases ht with h | h <;> simp [hp, hb, h, handleSingle]
  · intro ct o hp ht
    unfold deleteRun
    rcases ht with h | h <;> simp [hp, h, handleSingle]

/-- Witness for C6: a POST answered with 200 — a success status in general
HTTP but not POST's expected 201 — produces the formatted error string. -/
theorem verb_expected_status_witness :
    (postRun (some "tok") ⟨"users", .obj [("user", .obj [])], [], none⟩
        (.response 200 (.obj []))).1 =
      .err (.str "HTTP status code 200: \x7b\x7d") := by
  have h := (verb_expected_status 200 (.obj [])).2.2.1 (some "tok")
    ⟨"users", .obj [("user", .obj [])], [], none⟩ (by decide) rfl (Or.inr (by decide))
  rw [h]
  rfl

theorem headerLookup_cons_of_pos {p : String × String} {rest : List (String × String)}
    {k : String} (hp : (p.1 == k) = true) :
    headerLookup (p :: rest) k = some p.2 := by
  unfold headerLookup
  rw [List.find?_cons_of_pos (p := fun q => q.1 == k) (a := p) rest hp]
  rfl

theorem headerLookup_cons_of_neg {p : String × String} {rest : List (String × String)}
    {k : String} (hp : (p.1 == k) = false) :
    headerLookup (p :: rest) k = headerLookup rest k := by
  unfold headerLookup
  rw [List.find?_cons_of_neg (p := fun q => q.1 == k) (a := p) rest (by simp [hp])]

theorem headerLookup_map_replace (t : List (String × String)) (k v k' : String)
    (hne : k' ≠ k) :
    headerLookup (t.map (fun p => if p.1 == k then (p.1, v) else p)) k' =
      headerLookup t k' := by
  induction t with
  | nil => rfl
  | cons p rest ih =>
    simp only [List.map_cons]
    by_cases hp' : (p.1 == k') = true
    · have hpk : (p.1 == k) = false := by
        have hp'' : p.1 = k' := by simpa using hp'
        exact beq_eq_false_iff_ne.mpr (by rw [hp'']; exact hne)
      rw [if_neg (by simp [hpk]), headerLookup_cons_of_pos hp',
        headerLookup_cons_of_pos hp']
    · have hp'f : (p.1 == k') = false := by simpa using hp'
      by_cases hpk : (p.1 == k) = true
      · rw [if_pos hpk,
          headerLookup_cons_of_neg (show ((p.1, v).1 == k') = false from hp'f),
          headerLookup_cons_of_neg hp'f]
        exact ih
      · rw [if_neg (by simp [hpk]), headerLookup_cons_of_neg hp'f,
          headerLookup_cons_of_neg hp'f]
        exact ih

theorem headerLookup_append_single_other (t : List (String × String)) (k v k' : String)
    (hne : k' ≠ k) :
    headerLookup (t ++ [(k, v)]) k' = headerLookup t k' := by
  induction t with
  | nil =>
    rw [List.nil_append,
      headerLookup_cons_of_neg (show ((k, v).1 == k') = false from
        beq_eq_false_iff_ne.mpr (Ne.symm hne))]
  | cons p rest ih =>
    by_cases hp' : (p.1 == k') = true
    · rw [List.cons_append, headerLookup_cons_of_pos hp', headerLookup_cons_of_pos hp']
    · have hp'f : (p.1 == k') = false := by simpa using hp'
      rw [List.cons_append, headerLookup_cons_of_neg hp'f, headerLookup_cons_of_neg hp'f]
      exact ih

theorem headerLookup_objSet_self (t : List (String × String)) (k v : String) :
    headerLookup (objSet t k v) k = some v := by
  unfold objSet
  split
  case isTrue h =>
    induction t with
    | nil => simp at h
    | cons p rest ih =>
      simp only [List.map_cons]
      by_cases hp : (p.1 == k) = true
      · rw [if_pos (by simp [hp])]
        exact headerLookup_cons_of_pos (show ((p.1, v).1 == k) = true from hp)
      · rw [if_neg (by simp [(by simpa using hp : (p.1 == k) = false)])]
        rw [headerLookup_cons_of_neg (by simpa using hp)]
        apply ih
        simp only [List.any_cons, Bool.or_eq_true] at h
        exact h.resolve_left hp
  case isFalse h =>
    induction t with
    | nil =>
      rw [List.nil_append]
      exact headerLookup_cons_of_pos (by simp)
    | cons p rest ih =>
      simp only [List.any_cons, Bool.or_eq_true, not_or] at h
      rw [List.cons_append,
        headerLookup_cons_of_neg (by simpa using h.1)]
      exact ih h.2

theorem headerLookup_objSet_other (t : List (String × String)) (k v k' : String)
    (hne : k' ≠ k) :
    headerLookup (objSet t k v) k' = headerLookup t k' := by
  unfold objSet
  split
  · exact headerLookup_map_replace t k v k' hne
  · exact headerLookup_append_single_other t k v k' hne

theorem headerLookup_objAssign_of_not_key (target source : List (String × String))
    (k : String) (h : ∀ p ∈ source, p.1 ≠ k) :
    headerLookup (objAssign target source) k = headerLookup target k := by
  induction source generalizing target with
  | nil => rfl
  | cons q source' ih =>
    show headerLookup (objAssign (objSet target q.1 q.2) source') k = _
    rw [ih (objSet target q.1 q.2) (fun p hp => h p (List.mem_cons_of_mem _ hp))]
    exact headerLookup_objSet_other target q.1 q.2 k
      (fun hk => h q (List.mem_cons_self _ _) hk.symm)

theorem headerLookup_objAssign_mem (target source : List (String × String))
    (k v : String) (hnd : (source.map Prod.fst).Nodup) (hmem : (k, v) ∈ source) :
    headerLookup (objAssign target source) k = some v := by
  induction source generalizing target with
  | nil => cases hmem
  | cons q source' ih =>
    rcases List.mem_cons.mp hmem with h1 | h1
    · obtain rfl : q = (k, v) := h1.symm
      show headerLookup (objAssign (objSet target k v) source') k = some v
      have hnd2 : k ∉ source'.map Prod.fst ∧ (source'.map Prod.fst).Nodup := by
        rw [List.map_cons] at hnd
        exact List.nodup_cons.mp hnd
      have hnk : ∀ p ∈ source', p.1 ≠ k := by
        intro p hp hpk
        exact hnd2.1 (hpk ▸ List.mem_map_of_mem _ hp)
      rw [headerLookup_objAssign_of_not_key _ _ _ hnk]
      exact headerLookup_objSet_self target k v
    · have hnd' : (source'.map Prod.fst).Nodup := by
        rw [List.map_cons] at hnd
        exact (List.nodup_cons.mp hnd).2
      show headerLookup (objAssign (objSet target q.1 q.2) source') k = some v
      exact ih _ hnd' h1

/-- C9: for `post` and `put`, the request's header set is
`Object.assign({Accept, Authorization}, options.headers)` — a caller header
whose name collides exactly with a mandatory header replaces the mandatory
value, and every caller header with a non-colliding name is included while
the mandatory headers keep their values (a JS object's keys are distinct,
hence the no-duplicate hypothesis on the caller header names). -/
theorem post_put_header_merge (ct : Option String) (o : WriteOptions)
    (resp : PageResult) (hpath : o.path ≠ "") (hbody : o.body.truthy = true)
    (htok : tokenTruthy o.token = true ∨ tokenTruthy ct = true)
    (hnd : (o.headers.map Prod.fst).Nodup) :
    ∀ sent ∈ (postRun ct o resp).2 ++ (putRun ct o resp).2,
      (∀ k v, (k, v) ∈ o.headers → headerLookup sent.headers k = some v) ∧
      (∀ k, (∀ p ∈ o.headers, p.1 ≠ k) →
        headerLookup sent.headers k =
          headerLookup (defaultHeaders ((resolveToken o.token ct).getD "")) k) := by
  have hpost : (postRun ct o resp).2 =
      [⟨objAssign (defaultHeaders ((resolveToken o.token ct).getD "")) o.headers⟩] := by
    unfold postRun
    rcases htok with h | h <;> simp [hpath, hbody, h]
  have hput : (putRun ct o resp).2 =
      [⟨objAssign (defaultHeaders ((resolveToken o.token ct).getD "")) o.headers⟩] := by
    unfold putRun
    rcases htok with h | h <;> simp [hpath, hbody, h]
  intro sent hsent
  rw [hpost, hput] at hsent
  have hs : sent =
      ⟨objAssign (defaultHeaders ((resolveToken o.token ct).getD "")) o.headers⟩ := by
    rcases List.mem_append.mp hsent with h | h <;> simpa using h
  subst hs
  constructor
  · intro k v hkv
    exact headerLookup_objAssign_mem _ _ _ _ hnd hkv
  · intro k hk
    exact headerLookup_objAssign_of_not_key _ _ _ hk

/-- Witness for C9 at concrete caller headers `From` (new) and `Accept`
(colliding): in the post/put request, `From` is added, the caller's `Accept`
wins, and `Authorization` keeps its mandatory value. -/
theorem post_put_header_merge_witness :
    headerLookup (objAssign (defaultHeaders "t")
      [("From", "dev@example.com"), ("Accept", "text/plain")]) "From" =
        some "dev@example.com" ∧
    headerLookup (objAssign (defaultHeaders "t")
      [("From", "dev@example.com"), ("Accept", "text/plain")]) "Accept" =
        some "text/plain" ∧
    headerLookup (objAssign (defaultHeaders "t")
      [("From", "dev@example.com"), ("Accept", "text/plain")]) "Authorization" =
      headerLookup (defaultHeaders "t") "Authorization" := by
  have h := post_put_header_merge none
    ⟨"users", .obj [], [("From", "dev@example.com"), ("Accept", "text/plain")], some "t"⟩
    (.response 201 (.obj [])) (by decide) rfl (Or.inl (by decide)) (by decide)
  have hm := h ⟨objAssign (defaultHeaders "t")
      [("From", "dev@example.com"), ("Accept", "text/plain")]⟩ (by decide)
  exact ⟨hm.1 "From" "dev@example.com" (by decide),
    hm.1 "Accept" "text/plain" (by decide),
    hm.2 "Authorization" (by decide)⟩

theorem query_auth_const (key : Option String) (auth : String) (offset : Option Int)
    (acc : List Json) (pages : List PageResult) :
    ∀ r ∈ (query key auth offset acc pages).2, r.auth = auth := by
  induction pages generalizing offset acc with
  | nil =>
    intro r hr
    rcases List.mem_cons.mp hr with h | h
    · subst h; rfl
    · cases h
  | cons p rest ih =>
    cases p with
    | transportErr e =>
      intro r hr
      rcases List.mem_cons.mp hr with h | h
      · subst h; rfl
      · cases h
    | response status body =>
      by_cases hs : status = 200
      · subst hs
        by_cases hb : (body.get "more").truthy = true
        · rw [query_cons_more _ _ _ _ _ _ hb]
          intro r hr
          rcases List.mem_cons.mp hr with h | h
          · subst h; rfl
          · exact ih _ _ r h
        · rw [query_cons_nomore _ _ _ _ _ _ (by simpa using hb)]
          intro r hr
          rcases List.mem_cons.mp hr with h | h
          · subst h; rfl
          · cases h
      · intro r hr
        simp only [query, if_pos (by simpa using hs)] at hr
        rcases List.mem_cons.mp hr with h | h
        · subst h; rfl
        · cases h

/-- C7: for every operation, a non-empty per-call token is used for the
`Authorization` header in preference to the client default (for `post`/`put`
this shows up as the default fed into the header merge, so the lookup is
stated for header names the caller does not override); and when neither a
truthy per-call token nor a truthy client default exists, the callback gets
the configuration `Error` and the transport is invoked zero times — the
issued-request list is empty. -/
theorem token_resolution_order :
    (∀ (ct : Option String) (t : String) (o : GetOptions) (pages : List PageResult),
      t ≠ "" → o.token = some t →
      ∀ r ∈ (getRun ct o pages).2, r.auth = authHeader t) ∧
    (∀ (ct : Option String) (t : String) (o : WriteOptions) (resp : PageResult),
      t ≠ "" → o.token = some t → (∀ p ∈ o.headers, p.1 ≠ "Authorization") →
      ∀ s ∈ (postRun ct o resp).2 ++ (putRun ct o resp).2,
        headerLookup s.headers "Authorization" = some (authHeader t)) ∧
    (∀ (ct : Option String) (t : String) (o : DeleteOptions) (resp : PageResult),
      t ≠ "" → o.token = some t →
      ∀ s ∈ (deleteRun ct o resp).2,
        headerLookup s.headers "Authorization" = some (authHeader t)) ∧
    (∀ (ct : Option String) (o : GetOptions) (pages : List PageResult),
      tokenTruthy o.token = false → tokenTruthy ct = false → o.path ≠ "" →
      getRun ct o pages = (.err (.errObj "Must provide PagerDuty access token"), [])) ∧
    (∀ (ct : Option String) (o : WriteOptions) (resp : PageResult),
      tokenTruthy o.token = false → tokenTruthy ct = false → o.path ≠ "" →
      o.body.truthy = true →
      postRun ct o resp = (.err (.errObj "Must provide PagerDuty access token"), []) ∧
      putRun ct o resp = (.err (.errObj "Must provide PagerDuty access token"), [])) ∧
    (∀ (ct : Option String) (o : DeleteOptions) (resp : PageResult),
      tokenTruthy o.token = false → tokenTruthy ct = false → o.path ≠ "" →
      deleteRun ct o resp = (.err (.errObj "Must provide PagerDuty access token"), [])) := by
  have hres : ∀ (ct : Option String) (t : String), t ≠ "" →
      ∀ tok : Option String, tok = some t → resolveToken tok ct = some t := by
    intro ct t ht tok htok
    subst htok
    simp [resolveToken, tokenTruthy, ht]
  refine ⟨?_, ?_, ?_, ?_, ?_, ?_⟩
  · intro ct t o pages ht hot r hr
    unfold getRun at hr
    by_cases hp : o.path = ""
    · rw [if_pos hp] at hr; cases hr
    · rw [if_neg hp] at hr
      have htt : tokenTruthy o.token = true := by rw [hot]; simpa [tokenTruthy] using ht
      rw [htt] at hr
      simp only [Bool.not_true, Bool.false_and, Bool.false_eq_true, if_false] at hr
      rw [hres ct t ht o.token hot] at hr
      exact query_auth_const o.key _ (some 0) [] pages r hr
  · intro ct t o resp ht hot hna s hs
    have htt : tokenTruthy o.token = true := by rw [hot]; simpa [tokenTruthy] using ht
    by_cases hp : o.path = ""
    · unfold postRun putRun at hs
      simp [hp] at hs
    · by_cases hb : o.body.truthy = true
      · have hpost : (postRun ct o resp).2 =
            [⟨objAssign (defaultHeaders t) o.headers⟩] := by
          unfold postRun
          simp [hp, hb, htt, hres ct t ht o.token hot]
        have hput : (putRun ct o resp).2 =
            [⟨objAssign (defaultHeaders t) o.headers⟩] := by
          unfold putRun
          simp [hp, hb, htt, hres ct t ht o.token hot]
        rw [hpost, hput] at hs
        have hs' : s = ⟨objAssign (defaultHeaders t) o.headers⟩ := by
          rcases List.mem_append.mp hs with h | h <;> simpa using h
        subst hs'
        rw [headerLookup_objAssign_of_not_key _ _ _ hna]
        rfl
      · unfold postRun putRun at hs
        simp [hp, hb] at hs
  · intro ct t o resp ht hot s hs
    have htt : tokenTruthy o.token = true := by rw [hot]; simpa [tokenTruthy] using ht
    by_cases hp : o.path = ""
    · unfold deleteRun at hs
      simp [hp] at hs
    · unfold deleteRun at hs
      simp only [if_neg hp, htt, Bool.not_true, Bool.false_and, Bool.false_eq_true,
        if_false] at hs
      rw [hres ct t ht o.token hot] at hs
      rcases List.mem_cons.mp hs with h | h
      · subst h
        rfl
      · cases h
  · intro ct o pages hto htc hp
    unfold getRun
    rw [if_neg hp, hto, htc]
    rfl
  · intro ct o resp hto htc hp hb
    constructor
    · unfold postRun
      rw [if_neg hp, if_neg (by rw [hb]; simp), hto, htc]
      rfl
    · unfold putRun
      rw [if_neg hp, if_neg (by rw [hb]; simp), hto, htc]
      rfl
  · intro ct o resp hto htc hp
    unfold deleteRun
    rw [if_neg hp, hto, htc]
    rfl

/-- Witness for C7: with client default `default` and per-call token `call`,
the one issued request authenticates as `call`; with an empty-string client
token and no per-call token, the callback gets the configuration error and
no request is issued. -/
theorem token_resolution_order_witness :
    IssuedRequest.auth ⟨some 0, authHeader "call"⟩ = authHeader "call" ∧
    getRun (some "") ⟨"users", none, none⟩ [.response 200 (.obj [])] =
      (.err (.errObj "Must provide PagerDuty access token"), []) := by
  refine ⟨?_, ?_⟩
  · exact token_resolution_order.1 (some "default") "call" ⟨"users", none, some "call"⟩
      [.response 200 (.obj [])] (by decide) rfl ⟨some 0, authHeader "call"⟩ (by decide)
  · exact token_resolution_order.2.2.2.1 (some "") ⟨"users", none, none⟩
      [.response 200 (.obj [])] rfl rfl (by decide)

/-- C10: the callback's error argument has no uniform shape — the missing-path
precondition yields a JS `Error` object, an HTTP status failure yields a bare
formatted string, and a transport failure passes the HTTP library's own error
value through — exhibited on three concrete `get` calls, with the
discriminators telling the three shapes apart. -/
theorem callback_error_shapes_mixed :
    getRun (some "tok") ⟨"", none, none⟩ [] =
      (.err (.errObj "Must provide options.path"), []) ∧
    (getRun (some "tok") ⟨"users", none, none⟩ [.response 404 (.obj [])]).1 =
      .err (.str "HTTP status code 404: \x7b\x7d") ∧
    (getRun (some "tok") ⟨"users", none, none⟩ [.transportErr ⟨"ETIMEDOUT"⟩]).1 =
      .err (.transport ⟨"ETIMEDOUT"⟩) ∧
    (CbError.errObj "Must provide options.path").isErrObj = true ∧
    (CbError.errObj "Must provide options.path").isStr = false ∧
    (CbError.str "HTTP status code 404: \x7b\x7d").isStr = true ∧
    (CbError.str "HTTP status code 404: \x7b\x7d").isErrObj = false ∧
    (CbError.transport ⟨"ETIMEDOUT"⟩).isTransport = true ∧
    (CbError.transport ⟨"ETIMEDOUT"⟩).isErrObj = false ∧
    (CbError.transport ⟨"ETIMEDOUT"⟩).isStr = false := by
  refine ⟨rfl, rfl, rfl, rfl, rfl, rfl, rfl, rfl, rfl, rfl⟩
